import Mathlib

/-!
# Verification of the BallotBot moderation bot (src/BallotBot/main.py)

Shallow embedding of the core state machine: the persistent user store
(`Store`), the eligibility resolver (`has_prior_activity`), the vote
recording inlined in `monitor_comments`, the administrative whitelist
command of `monitor_terminal`, and the store loader (`load_user_data`).

Modelling conventions:
* The `Store` value threaded through each operation models the contents of
  `known_users.json`: every mutating operation in the source loads the
  file, mutates, and saves before releasing `user_data_lock`, so the file
  is the single source of truth and each operation is a function
  `Store → Store` (plus results/side-effect flags).
* Python strings are Lean `String`s; `str.lower()` is modelled on the
  ASCII range by `pyLower`, `str.strip()` by `pyStrip`.
* `datetime` values are epoch microseconds (`Int`); `created_utc < CUTOFF_DATE`
  in the source is strict `<` on these integers (assuming a UTC-local host,
  since the source converts via `datetime.fromtimestamp`).
* A Reddit listing (`author.comments.new(...)`) is a `QueryResult`: the
  items the generator yields, plus a flag saying whether iteration then
  raised an exception (rate limit, network failure, ...).
* Exceptions that the source catches are modelled by explicit branches;
  the functions are total, which is how "never raises to the caller" is
  expressed.
-/

namespace BallotBot

/-- ASCII case-lowering of one character, as Python `str.lower()` acts on
the ASCII range. -/
def pyLowerChar (c : Char) : Char :=
  if c.isUpper then Char.ofNat (c.toNat + 32) else c

/-- `s.lower()` on a string (ASCII range). -/
def pyLower (s : String) : String :=
  ⟨s.data.map pyLowerChar⟩

/-- `s.strip()`: drop leading and trailing whitespace. -/
def pyStrip (s : String) : String :=
  ⟨((s.data.dropWhile Char.isWhitespace).reverse.dropWhile Char.isWhitespace).reverse⟩

/-- `SUBREDDIT_NAME = 'dndhomebrew'` from the source. -/
def SUBREDDIT_NAME : String := "dndhomebrew"

/-- `VALID_VOTES = {'yes', 'no'}` from the source. -/
def VALID_VOTES : List String := ["yes", "no"]

/-- `CUTOFF_DATE = datetime(2025, 4, 20, tzinfo=timezone.utc)` from the
source, as epoch microseconds (2025-04-20 00:00:00 UTC). -/
def CUTOFF_DATE : Int := 1745107200000000

/-- The persistent user store: the three containers held in
`known_users.json` (`whitelist`, `blacklist` are Python lists of strings;
`votes` is a Python dict from username to vote text, modelled as an
insertion-ordered association list). -/
structure Store where
  whitelist : List String
  blacklist : List String
  votes : List (String × String)
deriving Repr, DecidableEq

/-- The store `load_user_data` builds when no cache exists:
`{'whitelist': [], 'blacklist': [], 'votes': {}}`. -/
def emptyStore : Store := ⟨[], [], []⟩

/-- Python dict assignment `d[k] = v`: replace the value of an existing
key in place, otherwise append a new entry. -/
def dictSet (m : List (String × String)) (k v : String) : List (String × String) :=
  if m.any (fun p => p.1 = k) then
    m.map (fun p => if p.1 = k then (k, v) else p)
  else
    m ++ [(k, v)]

/-- Python dict lookup `d.get(k)`. -/
def dictGet (m : List (String × String)) (k : String) : Option String :=
  (m.find? (fun p => p.1 = k)).map (·.2)

/-- One item of a user's activity history (a past comment or submission):
its subreddit's display name and its creation time (epoch microseconds). -/
structure Activity where
  subredditName : String
  createdUtc : Int
deriving Repr, DecidableEq

/-- The per-item test inside `has_prior_activity`:
`item.subreddit.display_name.lower() == SUBREDDIT_NAME and item_created_time < CUTOFF_DATE`. -/
def activityQualifies (x : Activity) : Bool :=
  pyLower x.subredditName == SUBREDDIT_NAME && decide (x.createdUtc < CUTOFF_DATE)

/-- Result of iterating one Reddit listing: the items the generator
yielded, and whether iteration then raised an exception. -/
structure QueryResult where
  items : List Activity
  errored : Bool
deriving Repr, DecidableEq

/-- A Redditor as `has_prior_activity` consumes it: `author.name`, and
the listings `author.comments.new(limit=...)` and
`author.submissions.new(limit=...)`. -/
structure Author where
  name : String
  comments : QueryResult
  submissions : QueryResult
deriving Repr, DecidableEq

/-- What one call to `has_prior_activity` produced: its return value, the
store contents afterwards, whether the external activity listings were
consulted, and whether `save_user_data` was called. -/
structure ClassifyResult where
  result : Bool
  store : Store
  queried : Bool
  saved : Bool
deriving Repr, DecidableEq

/-- `has_prior_activity(author)` from the source. `none` models a deleted
account (`if not author: return False`). On a cache miss the comment
listing is scanned first; a qualifying item whitelists the user, an
exception raised by a listing aborts straight to the blacklisting tail,
and submissions are only consulted when the comment listing was
exhausted without qualifying and without raising. -/
def has_prior_activity (store : Store) (author : Option Author) : ClassifyResult :=
  match author with
  | none => ⟨false, store, false, false⟩
  | some a =>
    let name := pyLower a.name
    if name ∈ store.whitelist then
      ⟨true, store, false, false⟩
    else if name ∈ store.blacklist then
      ⟨false, store, false, false⟩
    else if a.comments.items.any activityQualifies then
      ⟨true, { store with whitelist := store.whitelist ++ [name] }, true, true⟩
    else if a.comments.errored then
      ⟨false, { store with blacklist := store.blacklist ++ [name] }, true, true⟩
    else if a.submissions.items.any activityQualifies then
      ⟨true, { store with whitelist := store.whitelist ++ [name] }, true, true⟩
    else
      ⟨false, { store with blacklist := store.blacklist ++ [name] }, true, true⟩

/-- A comment as `monitor_comments` consumes it: its author (`none` for a
deleted account, whose `author.name` raises), its body, and whether
`comment.submission == post` holds for the designated target post. -/
structure RComment where
  author : Option Author
  body : String
  onTargetPost : Bool
deriving Repr, DecidableEq

/-- Terminal outcome of processing one comment in `monitor_comments`. -/
inductive Outcome where
  | skipped
  | notEligible
  | invalidVote
  | voteRecorded (choice : String)
  | errored
deriving Repr, DecidableEq

/-- Observable effects of processing one comment: the outcome, the store
afterwards, whether `comment.mod.remove()` ran, the modmail recipient if
one was sent, whether `has_prior_activity` was reached, and whether the
per-comment `except` branch logged an error. -/
structure ProcessResult where
  outcome : Outcome
  store : Store
  removed : Bool
  modmail : Option String
  classified : Bool
  loggedError : Bool
deriving Repr, DecidableEq

/-- The body of the `for comment in subreddit.stream.comments()` loop in
`monitor_comments`, for one comment. A comment on another post is not
inspected further. A deleted author makes `author.name` raise before any
classification, removal or store access; the surrounding `try` catches
it, logs, and the loop moves on. Otherwise eligibility is checked first,
then vote-text validity, then the vote is recorded under the raw
`author.name` with `data['votes'][username] = content`. -/
def processComment (store : Store) (c : RComment) : ProcessResult :=
  if !c.onTargetPost then
    ⟨.skipped, store, false, none, false, false⟩
  else
    match c.author with
    | none => ⟨.errored, store, false, none, false, true⟩
    | some a =>
      let username := a.name
      let content := pyLower (pyStrip c.body)
      let r := has_prior_activity store (some a)
      if !r.result then
        ⟨.notEligible, r.store, true, some username, true, false⟩
      else if content ∉ VALID_VOTES then
        ⟨.invalidVote, r.store, true, some username, true, false⟩
      else
        ⟨.voteRecorded content,
          { r.store with votes := dictSet r.store.votes username content },
          true, some username, true, false⟩

/-- The comment loop over a (finite prefix of the) comment stream. -/
def processAll (store : Store) (cs : List RComment) : Store :=
  cs.foldl (fun s c => (processComment s c).store) store

/-- The `whitelist <username>` branch of `monitor_terminal`. The whole
input line is `.strip().lower()`ed before parsing, and the argument is
stripped again, so the effective username is trimmed and lower-cased. -/
def terminalWhitelist (store : Store) (rawName : String) : Store :=
  let username := pyStrip (pyLower rawName)
  let s1 :=
    if username ∈ store.whitelist then store
    else { store with whitelist := store.whitelist ++ [username] }
  if username ∈ s1.blacklist then
    { s1 with blacklist := s1.blacklist.erase username }
  else s1

/-- A JSON value, as `json.load` can return one. -/
inductive Json where
  | null
  | bool (b : Bool)
  | num (n : Int)
  | str (s : String)
  | arr (elems : List Json)
  | obj (fields : List (String × Json))

/-- What the store file on disk can look like when `load_user_data` runs:
absent; present but raising on open or on `json.load` (unreadable bytes or
malformed JSON); or present with content parsing to the JSON value `j`
(the external `json` library is the parsing oracle). -/
inductive StoreFile where
  | missing
  | raising
  | content (j : Json)

/-- Events `load_user_data` writes through `log_action`. -/
inductive LoadLog where
  | initialized
  | loadError
deriving Repr, DecidableEq

/-- The JSON shape of the empty store
`{'whitelist': [], 'blacklist': [], 'votes': {}}`. -/
def emptyStoreJson : Json :=
  Json.obj [("whitelist", Json.arr []), ("blacklist", Json.arr []), ("votes", Json.obj [])]

/-- `load_user_data()` from the source: missing file yields the empty
store and logs initialization; a raising open/parse is caught, logged and
yields the empty store; otherwise whatever `json.load` returned is handed
back as-is, whatever its shape, with no log. The function is total: no
exception reaches the caller. -/
def load_user_data : StoreFile → Json × Option LoadLog
  | .missing => (emptyStoreJson, some .initialized)
  | .raising => (emptyStoreJson, some .loadError)
  | .content j => (j, none)

/-- Decode a JSON value into a `Store`, following the shape the program
itself writes (`save_user_data` via `json.dump`) and reads back
(`data['whitelist']`, `data['blacklist']`, `data['votes']`): an object
with exactly those three fields, two string arrays and a string-valued
object. Any other shape is a corrupt store representation. -/
def decodeStore (j : Json) : Option Store :=
  match j with
  | Json.obj [("whitelist", Json.arr wl), ("blacklist", Json.arr bl), ("votes", Json.obj vs)] =>
    let decStr : Json → Option String := fun x =>
      match x with
      | Json.str s => some s
      | _ => none
    match wl.mapM decStr, bl.mapM decStr,
          vs.mapM (fun p => (decStr p.2).map (fun v => (p.1, v))) with
    | some w, some b, some v => some ⟨w, b, v⟩
    | _, _, _ => none
  | _ => none

/-- One store-mutating transition of the running program: a bare
eligibility classification, the processing of one streamed comment, or
an administrative `whitelist` command. -/
inductive Step : Store → Store → Prop where
  | classify (s : Store) (a : Option Author) : Step s (has_prior_activity s a).store
  | comment (s : Store) (c : RComment) : Step s (processComment s c).store
  | terminal (s : Store) (n : String) : Step s (terminalWhitelist s n)

/-- Stores the program can actually be in, starting from the empty store. -/
def Reachable (s : Store) : Prop :=
  Relation.ReflTransGen Step emptyStore s

/-! ## Helper lemmas -/

/-- The per-item test accepts exactly a case-insensitive subreddit match
together with a creation time strictly before the cutoff. -/
theorem activityQualifies_iff (x : Activity) :
    activityQualifies x = true ↔
      pyLower x.subredditName = SUBREDDIT_NAME ∧ x.createdUtc < CUTOFF_DATE := by
  simp [activityQualifies]

/-- One `has_prior_activity` call leaves the store alone or appends the
lower-cased author name — previously in neither list — to exactly one of
the two lists. The votes are never touched. -/
theorem classify_store_cases (s : Store) (a : Option Author) :
    (has_prior_activity s a).store = s ∨
    ∃ n, n ∉ s.whitelist ∧ n ∉ s.blacklist ∧
      ((has_prior_activity s a).store = { s with whitelist := s.whitelist ++ [n] } ∨
       (has_prior_activity s a).store = { s with blacklist := s.blacklist ++ [n] }) := by
  cases a with
  | none => exact Or.inl rfl
  | some a =>
    by_cases h1 : pyLower a.name ∈ s.whitelist
    · exact Or.inl (by simp [has_prior_activity, h1])
    by_cases h2 : pyLower a.name ∈ s.blacklist
    · exact Or.inl (by simp [has_prior_activity, h1, h2])
    refine Or.inr ⟨pyLower a.name, h1, h2, ?_⟩
    by_cases h3 : a.comments.items.any activityQualifies = true
    · exact Or.inl (by simp [has_prior_activity, h1, h2, h3])
    by_cases h4 : a.comments.errored = true
    · exact Or.inr (by simp [has_prior_activity, h1, h2, h3, h4])
    by_cases h5 : a.submissions.items.any activityQualifies = true
    · exact Or.inl (by simp [has_prior_activity, h1, h2, h3, h4, h5])
    · exact Or.inr (by simp [has_prior_activity, h1, h2, h3, h4, h5])

/-- When classification succeeds, the lower-cased author name is in the
whitelist of the resulting store. -/
theorem classify_true_whitelist (s : Store) (a : Author)
    (h : (has_prior_activity s (some a)).result = true) :
    pyLower a.name ∈ (has_prior_activity s (some a)).store.whitelist := by
  by_cases h1 : pyLower a.name ∈ s.whitelist
  · simp [has_prior_activity, h1]
  by_cases h2 : pyLower a.name ∈ s.blacklist
  · simp [has_prior_activity, h1, h2] at h
  by_cases h3 : a.comments.items.any activityQualifies = true
  · simp [has_prior_activity, h1, h2, h3]
  by_cases h4 : a.comments.errored = true
  · simp [has_prior_activity, h1, h2, h3, h4] at h
  by_cases h5 : a.submissions.items.any activityQualifies = true
  · simp [has_prior_activity, h1, h2, h3, h4, h5]
  · simp [has_prior_activity, h1, h2, h3, h4, h5] at h

/-- Classification never shrinks the whitelist. -/
theorem classify_whitelist_mono (s : Store) (a : Option Author) {u : String}
    (hu : u ∈ s.whitelist) : u ∈ (has_prior_activity s a).store.whitelist := by
  rcases classify_store_cases s a with h | ⟨n, _, _, h | h⟩ <;> rw [h]
  · exact hu
  · exact List.mem_append_left _ hu
  · exact hu

/-- Classification never touches the votes. -/
theorem classify_votes_eq (s : Store) (a : Option Author) :
    (has_prior_activity s a).store.votes = s.votes := by
  rcases classify_store_cases s a with h | ⟨n, _, _, h | h⟩ <;> rw [h]

/-- `processComment` leaves the store alone, changes it exactly as the
embedded classification call does, or additionally records the vote under
the raw author name after a successful classification. -/
theorem processComment_store_cases (s : Store) (c : RComment) :
    (processComment s c).store = s ∨
    ∃ a, c.author = some a ∧
      ((processComment s c).store = (has_prior_activity s (some a)).store ∨
       ((has_prior_activity s (some a)).result = true ∧
        (processComment s c).store =
          { (has_prior_activity s (some a)).store with
              votes := dictSet (has_prior_activity s (some a)).store.votes a.name
                         (pyLower (pyStrip c.body)) })) := by
  by_cases hp : c.onTargetPost = true
  · cases ha : c.author with
    | none => exact Or.inl (by simp [processComment, hp, ha])
    | some a =>
      by_cases hr : (has_prior_activity s (some a)).result = true
      · by_cases hv : pyLower (pyStrip c.body) ∈ VALID_VOTES
        · exact Or.inr ⟨a, rfl, Or.inr ⟨hr, by simp [processComment, hp, ha, hr, hv]⟩⟩
        · exact Or.inr ⟨a, rfl, Or.inl (by simp [processComment, hp, ha, hr, hv])⟩
      · have hr' : (has_prior_activity s (some a)).result = false := by
          simpa using hr
        exact Or.inr ⟨a, rfl, Or.inl (by simp [processComment, hp, ha, hr'])⟩
  · have hp' : c.onTargetPost = false := by simpa using hp
    exact Or.inl (by simp [processComment, hp'])

/-- A key of the dict after `d[k] = v` is an old key or `k` itself. -/
theorem dictSet_keys_subset (m : List (String × String)) (k v x : String)
    (hx : x ∈ (dictSet m k v).map Prod.fst) : x ∈ m.map Prod.fst ∨ x = k := by
  unfold dictSet at hx
  split at hx
  · rcases List.mem_map.1 hx with ⟨p, hp, hpx⟩
    rcases List.mem_map.1 hp with ⟨q, hq, rfl⟩
    by_cases hqk : q.1 = k
    · simp [hqk] at hpx
      exact Or.inr hpx.symm
    · simp [hqk] at hpx
      exact Or.inl (hpx ▸ List.mem_map.2 ⟨q, hq, rfl⟩)
  · simp only [List.map_append, List.map_cons, List.map_nil, List.mem_append,
      List.mem_singleton] at hx
    exact hx

/-- Looking up `k` right after `d[k] = v` yields `v`, whatever was there
before. -/
theorem dictGet_dictSet (m : List (String × String)) (k v : String) :
    dictGet (dictSet m k v) k = some v := by
  unfold dictGet dictSet
  split
  case isTrue h =>
    induction m with
    | nil => simp at h
    | cons q t ih =>
      by_cases hq : q.1 = k
      · simp [List.find?_cons_of_pos, hq]
      · have ht : t.any (fun p => p.1 = k) = true := by
          simpa [List.any_cons, hq] using h
        simpa [List.find?_cons_of_neg, hq] using ih ht
  case isFalse h =>
    induction m with
    | nil => simp
    | cons q t ih =>
      have hq : ¬q.1 = k := by
        intro hk
        exact h (by simp [List.any_cons, hk])
      have ht : ¬t.any (fun p => p.1 = k) = true := by
        intro hk
        exact h (by simp [List.any_cons, hk])
      simpa [List.cons_append, List.find?_cons_of_neg, hq] using ih ht

/-! ## The store invariant and reachability -/

/-- The inductive invariant the program maintains on the persisted store:
the two eligibility lists are disjoint, the blacklist holds no duplicate,
and every key of the votes dict has its lower-cased form whitelisted. -/
def Inv (s : Store) : Prop :=
  (∀ u, ¬(u ∈ s.whitelist ∧ u ∈ s.blacklist)) ∧
  s.blacklist.Nodup ∧
  (∀ k, k ∈ s.votes.map Prod.fst → pyLower k ∈ s.whitelist)

theorem inv_empty : Inv emptyStore := by
  refine ⟨?_, ?_, ?_⟩ <;> simp [emptyStore]

/-- `has_prior_activity` preserves the store invariant. -/
theorem classify_inv (s : Store) (a : Option Author) (hI : Inv s) :
    Inv (has_prior_activity s a).store := by
  obtain ⟨hdisj, hnodup, hvotes⟩ := hI
  rcases classify_store_cases s a with h | ⟨n, hnw, hnb, h | h⟩ <;> rw [h]
  · exact ⟨hdisj, hnodup, hvotes⟩
  · refine ⟨?_, hnodup, ?_⟩
    · rintro u ⟨hu1, hu2⟩
      rcases List.mem_append.1 hu1 with hu1 | hu1
      · exact hdisj u ⟨hu1, hu2⟩
      · exact hnb (List.mem_singleton.1 hu1 ▸ hu2)
    · intro k hk
      exact List.mem_append_left _ (hvotes k hk)
  · refine ⟨?_, ?_, hvotes⟩
    · rintro u ⟨hu1, hu2⟩
      rcases List.mem_append.1 hu2 with hu2 | hu2
      · exact hdisj u ⟨hu1, hu2⟩
      · exact hnw (List.mem_singleton.1 hu2 ▸ hu1)
    · simpa [List.nodup_append] using ⟨hnodup, hnb⟩

/-- `terminalWhitelist` written out: the whitelist gains the normalized
name when absent, the blacklist loses its first occurrence of it when
present, and the votes are untouched. -/
theorem terminalWhitelist_eq (s : Store) (n : String) :
    terminalWhitelist s n =
      ⟨(if pyStrip (pyLower n) ∈ s.whitelist then s.whitelist
        else s.whitelist ++ [pyStrip (pyLower n)]),
       (if pyStrip (pyLower n) ∈ s.blacklist then s.blacklist.erase (pyStrip (pyLower n))
        else s.blacklist),
       s.votes⟩ := by
  simp only [terminalWhitelist]
  by_cases h1 : pyStrip (pyLower n) ∈ s.whitelist <;>
    by_cases h2 : pyStrip (pyLower n) ∈ s.blacklist <;>
      simp [h1, h2]

/-- Every store-mutating transition preserves the invariant. -/
theorem step_preserves_inv {s t : Store} (hstep : Step s t) (hI : Inv s) : Inv t := by
  cases hstep with
  | classify a => exact classify_inv s a hI
  | comment c =>
    rcases processComment_store_cases s c with h | ⟨a, ha, h | ⟨hr, h⟩⟩ <;> rw [h]
    · exact hI
    · exact classify_inv s (some a) hI
    · obtain ⟨hdisj, hnodup, hvotes⟩ := classify_inv s (some a) hI
      refine ⟨hdisj, hnodup, ?_⟩
      intro k hk
      rcases dictSet_keys_subset _ _ _ _ hk with hk | rfl
      · exact hvotes k hk
      · exact classify_true_whitelist s a hr
  | terminal n =>
    obtain ⟨hdisj, hnodup, hvotes⟩ := hI
    rw [terminalWhitelist_eq]
    by_cases h1 : pyStrip (pyLower n) ∈ s.whitelist <;>
      by_cases h2 : pyStrip (pyLower n) ∈ s.blacklist
    · exact absurd ⟨h1, h2⟩ (hdisj _)
    · rw [if_pos h1, if_neg h2]
      exact ⟨hdisj, hnodup, hvotes⟩
    · rw [if_neg h1, if_pos h2]
      refine ⟨?_, hnodup.erase _, ?_⟩
      · rintro u ⟨hu1, hu2⟩
        have hu2' := hnodup.mem_erase_iff.1 hu2
        rcases List.mem_append.1 hu1 with hu1 | hu1
        · exact hdisj u ⟨hu1, hu2'.2⟩
        · exact hu2'.1 (List.mem_singleton.1 hu1)
      · intro k hk
        exact List.mem_append_left _ (hvotes k hk)
    · rw [if_neg h1, if_neg h2]
      refine ⟨?_, hnodup, ?_⟩
      · rintro u ⟨hu1, hu2⟩
        rcases List.mem_append.1 hu1 with hu1 | hu1
        · exact hdisj u ⟨hu1, hu2⟩
        · exact h2 (List.mem_singleton.1 hu1 ▸ hu2)
      · intro k hk
        exact List.mem_append_left _ (hvotes k hk)

/-- Every reachable store satisfies the invariant. -/
theorem reachable_inv {s : Store} (h : Reachable s) : Inv s := by
  induction h with
  | refl => exact inv_empty
  | tail _ hstep ih => exact step_preserves_inv hstep ih

/-- No transition ever removes a whitelist entry. -/
theorem step_whitelist_mono {s t : Store} (hstep : Step s t) {u : String}
    (hu : u ∈ s.whitelist) : u ∈ t.whitelist := by
  cases hstep with
  | classify a => exact classify_whitelist_mono s a hu
  | comment c =>
    rcases processComment_store_cases s c with h | ⟨a, ha, h | ⟨hr, h⟩⟩ <;> rw [h]
    · exact hu
    · exact classify_whitelist_mono s (some a) hu
    · exact classify_whitelist_mono s (some a) hu
  | terminal n =>
    rw [terminalWhitelist_eq]
    by_cases h1 : pyStrip (pyLower n) ∈ s.whitelist
    · rw [if_pos h1]
      exact hu
    · rw [if_neg h1]
      exact List.mem_append_left _ hu

/-- A cache-miss classification touches exactly the lower-cased author
name: its whitelist and blacklist are the old ones, at most extended by
`pyLower a.name`. -/
theorem classify_lists_cases (s : Store) (a : Author) :
    ((has_prior_activity s (some a)).store.whitelist = s.whitelist ∨
     (has_prior_activity s (some a)).store.whitelist = s.whitelist ++ [pyLower a.name]) ∧
    ((has_prior_activity s (some a)).store.blacklist = s.blacklist ∨
     (has_prior_activity s (some a)).store.blacklist = s.blacklist ++ [pyLower a.name]) := by
  by_cases h1 : pyLower a.name ∈ s.whitelist
  · exact ⟨Or.inl (by simp [has_prior_activity, h1]), Or.inl (by simp [has_prior_activity, h1])⟩
  by_cases h2 : pyLower a.name ∈ s.blacklist
  · exact ⟨Or.inl (by simp [has_prior_activity, h1, h2]),
      Or.inl (by simp [has_prior_activity, h1, h2])⟩
  by_cases h3 : a.comments.items.any activityQualifies = true
  · exact ⟨Or.inr (by simp [has_prior_activity, h1, h2, h3]),
      Or.inl (by simp [has_prior_activity, h1, h2, h3])⟩
  by_cases h4 : a.comments.errored = true
  · exact ⟨Or.inl (by simp [has_prior_activity, h1, h2, h3, h4]),
      Or.inr (by simp [has_prior_activity, h1, h2, h3, h4])⟩
  by_cases h5 : a.submissions.items.any activityQualifies = true
  · exact ⟨Or.inr (by simp [has_prior_activity, h1, h2, h3, h4, h5]),
      Or.inl (by simp [has_prior_activity, h1, h2, h3, h4, h5])⟩
  · exact ⟨Or.inl (by simp [has_prior_activity, h1, h2, h3, h4, h5]),
      Or.inr (by simp [has_prior_activity, h1, h2, h3, h4, h5])⟩

/-! ## Claims -/

/-- C1, counterexample: the claim says a recorded vote is keyed by the
lower-cased username in the same key space as the whitelist. In fact the
vote of whitelisted author "Alice" is stored under "Alice", not under
"alice", while the whitelist holds "alice". -/
theorem claim_C1_counterexample :
    (processComment ⟨["alice"], [], []⟩
        ⟨some ⟨"Alice", ⟨[], false⟩, ⟨[], false⟩⟩, "yes", true⟩).outcome =
      Outcome.voteRecorded "yes" ∧
    "alice" ∉
      ((processComment ⟨["alice"], [], []⟩
        ⟨some ⟨"Alice", ⟨[], false⟩, ⟨[], false⟩⟩, "yes", true⟩).store.votes.map Prod.fst) ∧
    "Alice" ∈
      ((processComment ⟨["alice"], [], []⟩
        ⟨some ⟨"Alice", ⟨[], false⟩, ⟨[], false⟩⟩, "yes", true⟩).store.votes.map Prod.fst) ∧
    "alice" ∈
      (processComment ⟨["alice"], [], []⟩
        ⟨some ⟨"Alice", ⟨[], false⟩, ⟨[], false⟩⟩, "yes", true⟩).store.whitelist := by
  decide

/-- C1, amended: whitelist and blacklist entries are keyed by the
lower-cased username, but the votes dict is keyed by the author's
username exactly as reported (`author.name`), not lower-cased. -/
theorem claim_C1_amended (s : Store) (c : RComment) (a : Author)
    (hpost : c.onTargetPost = true) (hauth : c.author = some a)
    (helig : (has_prior_activity s (some a)).result = true)
    (hv : pyLower (pyStrip c.body) ∈ VALID_VOTES) :
    (processComment s c).store.votes =
      dictSet (has_prior_activity s (some a)).store.votes a.name (pyLower (pyStrip c.body)) ∧
    (∀ u, u ∈ (processComment s c).store.whitelist →
      u ∈ s.whitelist ∨ u = pyLower a.name) ∧
    (∀ u, u ∈ (processComment s c).store.blacklist →
      u ∈ s.blacklist ∨ u = pyLower a.name) := by
  have hst : (processComment s c).store =
      { (has_prior_activity s (some a)).store with
          votes := dictSet (has_prior_activity s (some a)).store.votes a.name
                     (pyLower (pyStrip c.body)) } := by
    simp [processComment, hpost, hauth, helig, hv]
  rw [hst]
  refine ⟨rfl, fun u hu => ?_, fun u hu => ?_⟩
  · rcases (classify_lists_cases s a).1 with h | h <;> rw [h] at hu
    · exact Or.inl hu
    · rcases List.mem_append.1 hu with hu | hu
      · exact Or.inl hu
      · exact Or.inr (List.mem_singleton.1 hu)
  · rcases (classify_lists_cases s a).2 with h | h <;> rw [h] at hu
    · exact Or.inl hu
    · rcases List.mem_append.1 hu with hu | hu
      · exact Or.inl hu
      · exact Or.inr (List.mem_singleton.1 hu)

theorem claim_C1_witness :
    (processComment ⟨["alice"], [], []⟩
        ⟨some ⟨"Alice", ⟨[], false⟩, ⟨[], false⟩⟩, "yes", true⟩).store.votes =
      dictSet (has_prior_activity ⟨["alice"], [], []⟩
        (some ⟨"Alice", ⟨[], false⟩, ⟨[], false⟩⟩)).store.votes "Alice"
        (pyLower (pyStrip "yes")) ∧
    ("alice" ∈ (⟨["alice"], [], []⟩ : Store).whitelist ∨ "alice" = pyLower "Alice") := by
  have h := claim_C1_amended ⟨["alice"], [], []⟩
    ⟨some ⟨"Alice", ⟨[], false⟩, ⟨[], false⟩⟩, "yes", true⟩
    ⟨"Alice", ⟨[], false⟩, ⟨[], false⟩⟩ rfl rfl (by decide) (by decide)
  exact ⟨h.1, h.2.1 "alice" (by decide)⟩

/-- C2: comments on the target post are evaluated in strict priority
order NotEligible → InvalidVote → VoteRecorded: a comment whose author
fails eligibility and whose text is also an invalid vote produces the
NotEligible outcome (a removal), never the InvalidVote outcome. -/
theorem claim_C2 (s : Store) (c : RComment) (a : Author)
    (hpost : c.onTargetPost = true) (hauth : c.author = some a)
    (hinel : (has_prior_activity s (some a)).result = false)
    (_hinv : pyLower (pyStrip c.body) ∉ VALID_VOTES) :
    (processComment s c).outcome = Outcome.notEligible ∧
    (processComment s c).outcome ≠ Outcome.invalidVote ∧
    (processComment s c).removed = true := by
  simp [processComment, hpost, hauth, hinel]

theorem claim_C2_witness :
    (processComment emptyStore
        ⟨some ⟨"Carol", ⟨[], false⟩, ⟨[], false⟩⟩, "maybe", true⟩).outcome =
      Outcome.notEligible ∧
    (processComment emptyStore
        ⟨some ⟨"Carol", ⟨[], false⟩, ⟨[], false⟩⟩, "maybe", true⟩).outcome ≠
      Outcome.invalidVote ∧
    (processComment emptyStore
        ⟨some ⟨"Carol", ⟨[], false⟩, ⟨[], false⟩⟩, "maybe", true⟩).removed = true :=
  claim_C2 emptyStore _ ⟨"Carol", ⟨[], false⟩, ⟨[], false⟩⟩ rfl rfl (by decide) (by decide)

/-- C3: for a cache-miss user whose listings do not raise, classification
succeeds exactly when some activity item (comment or submission) has a
case-insensitively matching subreddit AND a creation time strictly before
the cutoff; an item exactly at the cutoff therefore never qualifies. -/
theorem claim_C3 (s : Store) (a : Author)
    (hw : pyLower a.name ∉ s.whitelist) (hb : pyLower a.name ∉ s.blacklist)
    (hce : a.comments.errored = false) :
    (has_prior_activity s (some a)).result = true ↔
      ∃ x ∈ a.comments.items ++ a.submissions.items,
        pyLower x.subredditName = SUBREDDIT_NAME ∧ x.createdUtc < CUTOFF_DATE := by
  constructor
  · intro h
    by_cases h3 : a.comments.items.any activityQualifies = true
    · rcases List.any_eq_true.1 h3 with ⟨x, hx, hxq⟩
      exact ⟨x, List.mem_append_left _ hx, (activityQualifies_iff x).1 hxq⟩
    · by_cases h5 : a.submissions.items.any activityQualifies = true
      · rcases List.any_eq_true.1 h5 with ⟨x, hx, hxq⟩
        exact ⟨x, List.mem_append_right _ hx, (activityQualifies_iff x).1 hxq⟩
      · simp [has_prior_activity, hw, hb, h3, hce, h5] at h
  · rintro ⟨x, hx, hxq⟩
    have hxq' : activityQualifies x = true := (activityQualifies_iff x).2 hxq
    rcases List.mem_append.1 hx with hx | hx
    · have h3 : a.comments.items.any activityQualifies = true :=
        List.any_eq_true.2 ⟨x, hx, hxq'⟩
      simp [has_prior_activity, hw, hb, h3]
    · by_cases h3 : a.comments.items.any activityQualifies = true
      · simp [has_prior_activity, hw, hb, h3]
      · have h5 : a.submissions.items.any activityQualifies = true :=
          List.any_eq_true.2 ⟨x, hx, hxq'⟩
        simp [has_prior_activity, hw, hb, h3, hce, h5]

theorem claim_C3_witness :
    (has_prior_activity emptyStore
        (some ⟨"Erin", ⟨[⟨"DnDHomebrew", 1745107199999999⟩], false⟩, ⟨[], false⟩⟩)).result
      = true ∧
    (has_prior_activity emptyStore
        (some ⟨"Dana", ⟨[⟨"DnDHomebrew", 1745107200000000⟩], false⟩, ⟨[], false⟩⟩)).result
      = false := by
  constructor
  · exact (claim_C3 emptyStore ⟨"Erin", ⟨[⟨"DnDHomebrew", 1745107199999999⟩], false⟩,
        ⟨[], false⟩⟩ (by decide) (by decide) rfl).2
      ⟨⟨"DnDHomebrew", 1745107199999999⟩, by decide, by decide, by decide⟩
  · decide

/-- C4: if the activity query raises while classifying a cache-miss user,
there is no retry and no propagation: the user is blacklisted, the store
persisted, false returned — the very outcome of a user with no qualifying
history at all. -/
theorem claim_C4 (s : Store) (a : Author)
    (hw : pyLower a.name ∉ s.whitelist) (hb : pyLower a.name ∉ s.blacklist)
    (hnoc : a.comments.items.any activityQualifies = false)
    (herr : a.comments.errored = true ∨
      (a.submissions.items.any activityQualifies = false ∧ a.submissions.errored = true)) :
    has_prior_activity s (some a) =
      ⟨false, { s with blacklist := s.blacklist ++ [pyLower a.name] }, true, true⟩ ∧
    has_prior_activity s (some a) =
      has_prior_activity s (some ⟨a.name, ⟨[], false⟩, ⟨[], false⟩⟩) := by
  have h1 : has_prior_activity s (some a) =
      ⟨false, { s with blacklist := s.blacklist ++ [pyLower a.name] }, true, true⟩ := by
    rcases herr with herr | ⟨hs5, _⟩
    · simp [has_prior_activity, hw, hb, hnoc, herr]
    · by_cases hce : a.comments.errored = true
      · simp [has_prior_activity, hw, hb, hnoc, hce]
      · simp [has_prior_activity, hw, hb, hnoc, hce, hs5]
  refine ⟨h1, ?_⟩
  rw [h1]
  simp [has_prior_activity, hw, hb]

theorem claim_C4_witness :
    has_prior_activity emptyStore (some ⟨"Frank", ⟨[], true⟩, ⟨[], false⟩⟩) =
      ⟨false, { emptyStore with
        blacklist := emptyStore.blacklist ++ [pyLower "Frank"] }, true, true⟩ ∧
    has_prior_activity emptyStore (some ⟨"Frank", ⟨[], true⟩, ⟨[], false⟩⟩) =
      has_prior_activity emptyStore (some ⟨"Frank", ⟨[], false⟩, ⟨[], false⟩⟩) :=
  claim_C4 emptyStore ⟨"Frank", ⟨[], true⟩, ⟨[], false⟩⟩
    (by decide) (by decide) rfl (Or.inl rfl)

/-- C5: starting from the empty store, every mutating operation (cache-miss
classification, vote recording during comment processing, and the
administrative whitelist command) preserves the invariant that no
username is simultaneously whitelisted and blacklisted. -/
theorem claim_C5 (s : Store) (hs : Reachable s) (u : String) :
    ¬(u ∈ s.whitelist ∧ u ∈ s.blacklist) :=
  (reachable_inv hs).1 u

theorem claim_C5_witness :
    ¬("bob" ∈ (terminalWhitelist emptyStore "Bob").whitelist ∧
      "bob" ∈ (terminalWhitelist emptyStore "Bob").blacklist) :=
  claim_C5 (terminalWhitelist emptyStore "Bob")
    (Relation.ReflTransGen.single (Step.terminal emptyStore "Bob")) "bob"

/-- C6: vote recording normalizes the comment body by stripping and
lower-casing; for an eligible author the outcome is the invalid-vote
rejection exactly when the normalized text is not in {yes, no}, and
otherwise the normalized choice overwrites `votes[username]`
unconditionally — a later vote by the same user wins. -/
theorem claim_C6 (s : Store) (c : RComment) (a : Author)
    (hpost : c.onTargetPost = true) (hauth : c.author = some a)
    (helig : (has_prior_activity s (some a)).result = true) :
    ((processComment s c).outcome = Outcome.invalidVote ↔
      pyLower (pyStrip c.body) ∉ VALID_VOTES) ∧
    (pyLower (pyStrip c.body) ∈ VALID_VOTES →
      (processComment s c).outcome = Outcome.voteRecorded (pyLower (pyStrip c.body)) ∧
      (processComment s c).store.votes =
        dictSet (has_prior_activity s (some a)).store.votes a.name
          (pyLower (pyStrip c.body)) ∧
      dictGet (processComment s c).store.votes a.name =
        some (pyLower (pyStrip c.body))) := by
  by_cases hv : pyLower (pyStrip c.body) ∈ VALID_VOTES
  · refine ⟨?_, fun _ => ⟨?_, ?_, ?_⟩⟩
    · simp [processComment, hpost, hauth, helig, hv]
    · simp [processComment, hpost, hauth, helig, hv]
    · simp [processComment, hpost, hauth, helig, hv]
    · simp [processComment, hpost, hauth, helig, hv, dictGet_dictSet]
  · refine ⟨?_, fun h => absurd h hv⟩
    simp [processComment, hpost, hauth, helig, hv]

theorem claim_C6_witness :
    dictGet (processComment emptyStore
        ⟨some ⟨"Grace", ⟨[⟨"dndhomebrew", 0⟩], false⟩, ⟨[], false⟩⟩,
         "  YES ", true⟩).store.votes "Grace" = some "yes" ∧
    dictGet (processComment
        (processComment emptyStore
          ⟨some ⟨"Grace", ⟨[⟨"dndhomebrew", 0⟩], false⟩, ⟨[], false⟩⟩,
           "  YES ", true⟩).store
        ⟨some ⟨"Grace", ⟨[⟨"dndhomebrew", 0⟩], false⟩, ⟨[], false⟩⟩,
         "no", true⟩).store.votes "Grace" = some "no" := by
  constructor
  · exact ((claim_C6 emptyStore
      ⟨some ⟨"Grace", ⟨[⟨"dndhomebrew", 0⟩], false⟩, ⟨[], false⟩⟩, "  YES ", true⟩
      ⟨"Grace", ⟨[⟨"dndhomebrew", 0⟩], false⟩, ⟨[], false⟩⟩ rfl rfl
      (by decide)).2 (by decide)).2.2
  · exact ((claim_C6
      (processComment emptyStore
        ⟨some ⟨"Grace", ⟨[⟨"dndhomebrew", 0⟩], false⟩, ⟨[], false⟩⟩, "  YES ", true⟩).store
      ⟨some ⟨"Grace", ⟨[⟨"dndhomebrew", 0⟩], false⟩, ⟨[], false⟩⟩, "no", true⟩
      ⟨"Grace", ⟨[⟨"dndhomebrew", 0⟩], false⟩, ⟨[], false⟩⟩ rfl rfl
      (by decide)).2 (by decide)).2.2

/-- C7: a whitelisted username classifies as true with no external query
and no store write; a blacklisted username (on any reachable store, where
the two lists are disjoint) classifies as false likewise. -/
theorem claim_C7 (s : Store) (hs : Reachable s) (a : Author) :
    (pyLower a.name ∈ s.whitelist →
      has_prior_activity s (some a) = ⟨true, s, false, false⟩) ∧
    (pyLower a.name ∈ s.blacklist →
      has_prior_activity s (some a) = ⟨false, s, false, false⟩) := by
  constructor
  · intro h1
    simp [has_prior_activity, h1]
  · intro h2
    have h1 : pyLower a.name ∉ s.whitelist := fun h1 => (reachable_inv hs).1 _ ⟨h1, h2⟩
    simp [has_prior_activity, h1, h2]

theorem claim_C7_witness :
    has_prior_activity (terminalWhitelist emptyStore "Eve")
        (some ⟨"Eve", ⟨[], true⟩, ⟨[], true⟩⟩) =
      ⟨true, terminalWhitelist emptyStore "Eve", false, false⟩ ∧
    has_prior_activity
        (has_prior_activity emptyStore (some ⟨"Frank", ⟨[], false⟩, ⟨[], false⟩⟩)).store
        (some ⟨"Frank", ⟨[], true⟩, ⟨[], true⟩⟩) =
      ⟨false,
       (has_prior_activity emptyStore (some ⟨"Frank", ⟨[], false⟩, ⟨[], false⟩⟩)).store,
       false, false⟩ := by
  constructor
  · exact (claim_C7 _ (Relation.ReflTransGen.single (Step.terminal emptyStore "Eve"))
      ⟨"Eve", ⟨[], true⟩, ⟨[], true⟩⟩).1 (by decide)
  · exact (claim_C7 _ (Relation.ReflTransGen.single
        (Step.classify emptyStore (some ⟨"Frank", ⟨[], false⟩, ⟨[], false⟩⟩)))
      ⟨"Frank", ⟨[], true⟩, ⟨[], true⟩⟩).2 (by decide)

/-- C8, counterexample: the claim says corrupt or unparseable content
yields the empty store and an error log. A file whose bytes are the valid
JSON text `[]` parses fine but is corrupt as a store representation, and
`load_user_data` hands it back unchanged with no log and no recovery. -/
theorem claim_C8_counterexample :
    decodeStore (Json.arr []) = none ∧
    (load_user_data (StoreFile.content (Json.arr []))).1 = Json.arr [] ∧
    (load_user_data (StoreFile.content (Json.arr []))).1 ≠ emptyStoreJson ∧
    (load_user_data (StoreFile.content (Json.arr []))).2 = none := by
  refine ⟨rfl, rfl, fun h => ?_, rfl⟩
  exact Json.noConfusion h

/-- C8, amended: `load_user_data` never raises to its caller; a missing
file yields the empty store with an initialization log, and a file whose
open or JSON-parse raises yields the empty store with an error log; but a
file that parses as JSON is returned as-is, with no shape validation and
no log, even when its shape is not a valid store. -/
theorem claim_C8_amended :
    load_user_data StoreFile.missing = (emptyStoreJson, some LoadLog.initialized) ∧
    load_user_data StoreFile.raising = (emptyStoreJson, some LoadLog.loadError) ∧
    (∀ j : Json, load_user_data (StoreFile.content j) = (j, none)) ∧
    decodeStore emptyStoreJson = some emptyStore :=
  ⟨rfl, rfl, fun _ => rfl, rfl⟩

theorem claim_C8_witness :
    load_user_data (StoreFile.content Json.null) = (Json.null, none) ∧
    load_user_data StoreFile.missing = (emptyStoreJson, some LoadLog.initialized) :=
  ⟨claim_C8_amended.2.2.1 Json.null, claim_C8_amended.1⟩

/-- C9 (implicit): in every store reachable from the empty store under the
program's own operations, the lower-cased form of every key of the votes
dict is in the whitelist — a vote is only recorded right after a
successful classification, and no operation removes a whitelist entry. -/
theorem claim_C9 (s t : Store) (hs : Reachable s) :
    (∀ k ∈ s.votes.map Prod.fst, pyLower k ∈ s.whitelist) ∧
    (Step s t → ∀ u ∈ s.whitelist, u ∈ t.whitelist) :=
  ⟨fun k hk => (reachable_inv hs).2.2 k hk,
   fun hst u hu => @step_whitelist_mono s t hst u hu⟩

theorem claim_C9_witness :
    pyLower "Bob" ∈
      (processComment emptyStore
        ⟨some ⟨"Bob", ⟨[⟨"dndhomebrew", 0⟩], false⟩, ⟨[], false⟩⟩,
         "yes", true⟩).store.whitelist ∧
    "bob" ∈
      (terminalWhitelist
        (processComment emptyStore
          ⟨some ⟨"Bob", ⟨[⟨"dndhomebrew", 0⟩], false⟩, ⟨[], false⟩⟩,
           "yes", true⟩).store "x").whitelist := by
  refine ⟨?_, ?_⟩
  · exact (claim_C9 _ emptyStore
      (Relation.ReflTransGen.single (Step.comment emptyStore
        ⟨some ⟨"Bob", ⟨[⟨"dndhomebrew", 0⟩], false⟩, ⟨[], false⟩⟩, "yes", true⟩))).1
      "Bob" (by decide)
  · exact (claim_C9 _ _
      (Relation.ReflTransGen.single (Step.comment emptyStore
        ⟨some ⟨"Bob", ⟨[⟨"dndhomebrew", 0⟩], false⟩, ⟨[], false⟩⟩, "yes", true⟩))).2
      (Step.terminal _ "x") "bob" (by decide)

/-- C10 (implicit): a comment on the target post whose author is absent
(deleted account) raises while `author.name` is read, before any
classification, removal or store access: the comment is not removed, the
store is unchanged, no modmail is sent, the error is logged, and the
stream loop continues with the next comment. -/
theorem claim_C10 (s : Store) (c : RComment)
    (hpost : c.onTargetPost = true) (hauth : c.author = none) :
    processComment s c = ⟨Outcome.errored, s, false, none, false, true⟩ ∧
    ∀ rest, processAll s (c :: rest) = processAll s rest := by
  have h : processComment s c = ⟨Outcome.errored, s, false, none, false, true⟩ := by
    simp [processComment, hpost, hauth]
  exact ⟨h, fun rest => by simp [processAll, h]⟩

theorem claim_C10_witness :
    processComment emptyStore ⟨none, "yes", true⟩ =
      ⟨Outcome.errored, emptyStore, false, none, false, true⟩ ∧
    processAll emptyStore [⟨none, "yes", true⟩, ⟨none, "no", true⟩] =
      processAll emptyStore [⟨none, "no", true⟩] :=
  ⟨(claim_C10 emptyStore ⟨none, "yes", true⟩ rfl rfl).1,
   (claim_C10 emptyStore ⟨none, "yes", true⟩ rfl rfl).2 [⟨none, "no", true⟩]⟩

end BallotBot
